import Mathlib

/-!
Verification of the ArtyVoiceBot python backend
(`Samples/V1.0Samples/ArtyVoiceBot/python-backend-example/main.py`).

The backend keeps two in-memory lists, `status_events` and
`transcription_events`, receives validated webhook payloads, appends them
with a locally assigned `received_at` stamp, and exposes query and clear
endpoints.  The embedding below translates the pydantic models and the
four handlers (`receive_status`, `receive_transcription`, `get_events`,
`clear_events`) into pure Lean functions; the mutable module-level lists
become an explicit `Store` value threaded through the handlers.

Modelling conventions:
* `datetime` instants are natural numbers; `isoformat` is the identity on
  this model (storing a stamp keeps its value).
* `datetime.utcnow()` is an ambient clock reading passed to each receive
  operation as an explicit `now` argument; the code gives the reading no
  property beyond being the current wall clock at that call.
* pydantic validation of a JSON body is modelled on raw payload records
  whose fields are `Option`-valued: a `None` field is a missing field.
  The pydantic types `str` and `int` constrain nothing beyond presence
  and type, exactly as `StatusWebhook` / `TranscriptionWebhook` declare.
* The handler bodies dispatch the status-specific hooks (the
  `if/elif` chain on `webhook.status`, lines 89-99) after the append and
  before the acknowledgement is built; the list of hooks fired is
  returned alongside the updated store and the response.
-/

namespace ArtyBackend

/-- `StatusWebhook` (main.py lines 26-30): validated status payload. -/
structure StatusWebhook where
  callId : String
  status : String
  message : String
  timestamp : Nat
deriving Repr, DecidableEq

/-- `TranscriptionWebhook` (main.py lines 32-38): validated transcription
payload.  `durationMs` is a pydantic `int`: any integer, signs included. -/
structure TranscriptionWebhook where
  callId : String
  audioFilePath : String
  timestamp : Nat
  speakerId : String
  speakerName : String
  durationMs : Int
deriving Repr, DecidableEq

/-- A stored status event: the dict appended at main.py lines 75-81. -/
structure StatusEvent where
  callId : String
  status : String
  message : String
  timestamp : Nat
  received_at : Nat
deriving Repr, DecidableEq

/-- A stored transcription event: the dict appended at main.py lines 118-126. -/
structure TranscriptionEvent where
  callId : String
  speakerId : String
  speakerName : String
  audioFilePath : String
  durationMs : Int
  timestamp : Nat
  received_at : Nat
deriving Repr, DecidableEq

/-- The module-level mutable state: `status_events` and
`transcription_events` (main.py lines 42-43). -/
structure Store where
  status_events : List StatusEvent
  transcription_events : List TranscriptionEvent
deriving Repr, DecidableEq

/-- The state at process start: both lists empty. -/
def emptyStore : Store := ⟨[], []⟩

/-- A raw status request body before validation: each declared field is
present (`some`) or missing (`none`). -/
structure RawStatusPayload where
  callId : Option String
  status : Option String
  message : Option String
  timestamp : Option Nat
deriving Repr, DecidableEq

/-- A raw transcription request body before validation. -/
structure RawTranscriptionPayload where
  callId : Option String
  audioFilePath : Option String
  timestamp : Option Nat
  speakerId : Option String
  speakerName : Option String
  durationMs : Option Int
deriving Repr, DecidableEq

/-- pydantic's validation failure, carrying the offending field's name. -/
inductive ValidationError where
  | missingField (field : String)
deriving Repr, DecidableEq

/-- pydantic validation of `StatusWebhook`: every declared field is
required; a missing field fails naming that field.  No further
constraint is declared on any field. -/
def StatusWebhook.validate (p : RawStatusPayload) :
    Except ValidationError StatusWebhook :=
  match p.callId with
  | none => Except.error (ValidationError.missingField "callId")
  | some c =>
  match p.status with
  | none => Except.error (ValidationError.missingField "status")
  | some s =>
  match p.message with
  | none => Except.error (ValidationError.missingField "message")
  | some m =>
  match p.timestamp with
  | none => Except.error (ValidationError.missingField "timestamp")
  | some ts => Except.ok ⟨c, s, m, ts⟩

/-- pydantic validation of `TranscriptionWebhook`: presence of every
declared field, nothing else (`durationMs : int` admits negatives). -/
def TranscriptionWebhook.validate (p : RawTranscriptionPayload) :
    Except ValidationError TranscriptionWebhook :=
  match p.callId with
  | none => Except.error (ValidationError.missingField "callId")
  | some c =>
  match p.audioFilePath with
  | none => Except.error (ValidationError.missingField "audioFilePath")
  | some a =>
  match p.timestamp with
  | none => Except.error (ValidationError.missingField "timestamp")
  | some ts =>
  match p.speakerId with
  | none => Except.error (ValidationError.missingField "speakerId")
  | some si =>
  match p.speakerName with
  | none => Except.error (ValidationError.missingField "speakerName")
  | some sn =>
  match p.durationMs with
  | none => Except.error (ValidationError.missingField "durationMs")
  | some d => Except.ok ⟨c, a, ts, si, sn, d⟩

/-- The observable side-effect hooks the status handler dispatches
(main.py lines 89-99): bot-joined notification, finalize-meeting, alert. -/
inductive Hook where
  | botJoined
  | finalizeMeeting
  | alert
deriving Repr, DecidableEq

/-- The event dict built and appended by `receive_status`
(main.py lines 75-81): webhook fields plus `received_at = utcnow()`. -/
def mkStatusEvent (w : StatusWebhook) (now : Nat) : StatusEvent :=
  ⟨w.callId, w.status, w.message, w.timestamp, now⟩

/-- The `if/elif` dispatch on `webhook.status` (main.py lines 89-99):
at most one branch runs, selected by exact string comparison. -/
def statusHooks (w : StatusWebhook) : List Hook :=
  if w.status = "joined" then [Hook.botJoined]
  else if w.status = "left" then [Hook.finalizeMeeting]
  else if w.status = "error" then [Hook.alert]
  else []

/-- The acknowledgement body of `receive_status` (main.py line 101). -/
structure StatusAck where
  received : Bool
  callId : String
deriving Repr, DecidableEq

/-- `receive_status` (main.py lines 60-101): append the event, dispatch
the status hooks, return `{received: true, callId}`.  The hooks fire
inside the handler, after the append and before the acknowledgement. -/
def receive_status (store : Store) (now : Nat) (w : StatusWebhook) :
    Store × List Hook × StatusAck :=
  ({ store with status_events := store.status_events ++ [mkStatusEvent w now] },
   statusHooks w,
   ⟨true, w.callId⟩)

/-- The event dict built and appended by `receive_transcription`
(main.py lines 118-126). -/
def mkTranscriptionEvent (w : TranscriptionWebhook) (now : Nat) :
    TranscriptionEvent :=
  ⟨w.callId, w.speakerId, w.speakerName, w.audioFilePath, w.durationMs,
   w.timestamp, now⟩

/-- The acknowledgement body of `receive_transcription`
(main.py lines 139-143). -/
structure TranscriptionAck where
  received : Bool
  callId : String
  message : String
deriving Repr, DecidableEq

/-- `receive_transcription` (main.py lines 104-143): append the event,
return `{received: true, callId, message}`; no hooks are dispatched. -/
def receive_transcription (store : Store) (now : Nat)
    (w : TranscriptionWebhook) : Store × TranscriptionAck :=
  ({ store with transcription_events :=
      store.transcription_events ++ [mkTranscriptionEvent w now] },
   ⟨true, w.callId, "Audio will be processed"⟩)

/-- The `POST /api/arty/status` endpoint: the framework validates the
body against `StatusWebhook` before the handler runs, so a validation
failure leaves the store untouched and returns the error. -/
def post_status (store : Store) (now : Nat) (p : RawStatusPayload) :
    Store × Except ValidationError (List Hook × StatusAck) :=
  match StatusWebhook.validate p with
  | Except.error e => (store, Except.error e)
  | Except.ok w =>
      let r := receive_status store now w
      (r.1, Except.ok r.2)

/-- The `POST /api/arty/transcription` endpoint: validation first, the
handler only on success. -/
def post_transcription (store : Store) (now : Nat)
    (p : RawTranscriptionPayload) :
    Store × Except ValidationError TranscriptionAck :=
  match TranscriptionWebhook.validate p with
  | Except.error e => (store, Except.error e)
  | Except.ok w =>
      let r := receive_transcription store now w
      (r.1, Except.ok r.2)

/-- The two list comprehensions of the filtered branch of `get_events`
(main.py lines 155-156): events of each sequence whose `callId` equals
the query argument, in stored order. -/
def queryByCallId (store : Store) (cid : String) :
    List StatusEvent × List TranscriptionEvent :=
  (store.status_events.filter (fun e => e.callId == cid),
   store.transcription_events.filter (fun e => e.callId == cid))

/-- Python's `xs[-10:]` generalized: the last `n` elements (all of them
when fewer), kept in order. -/
def lastN (n : Nat) {α : Type} (xs : List α) : List α :=
  xs.drop (xs.length - n)

/-- The two response shapes of `GET /api/arty/events`
(main.py lines 158-169). -/
inductive EventsResponse where
  | filtered (callId : String) (status_events : List StatusEvent)
      (transcription_events : List TranscriptionEvent)
  | summary (total_status_events : Nat) (total_transcription_events : Nat)
      (status_events : List StatusEvent)
      (transcription_events : List TranscriptionEvent)
deriving Repr, DecidableEq

/-- The summary body returned when no call id filters the view
(main.py lines 164-169): totals plus the last 10 of each sequence. -/
def summaryView (store : Store) : EventsResponse :=
  EventsResponse.summary store.status_events.length
    store.transcription_events.length
    (lastN 10 store.status_events)
    (lastN 10 store.transcription_events)

/-- `get_events` (main.py lines 146-169).  The guard is Python's
`if call_id:`, true only for a present, non-empty string: an absent or
empty `call_id` yields the summary view. -/
def get_events (store : Store) (call_id : Option String) : EventsResponse :=
  match call_id with
  | some cid =>
      if cid = "" then summaryView store
      else EventsResponse.filtered cid (queryByCallId store cid).1
        (queryByCallId store cid).2
  | none => summaryView store

/-- The acknowledgement body of `clear_events` (main.py lines 185-189). -/
structure ClearAck where
  cleared : Bool
  status_events_cleared : Nat
  transcription_events_cleared : Nat
deriving Repr, DecidableEq

/-- `clear_events` (main.py lines 172-189): record both lengths, rebind
both lists to empty, and report the counts cleared. -/
def clear_events (store : Store) : Store × ClearAck :=
  (emptyStore,
   ⟨true, store.status_events.length, store.transcription_events.length⟩)

/-- One state-changing request of a process run: a successful status
receive, a successful transcription receive, or a clear, each receive
carrying the `utcnow()` reading observed during it. -/
inductive Op where
  | status (now : Nat) (w : StatusWebhook)
  | transcription (now : Nat) (w : TranscriptionWebhook)
  | clear
deriving Repr

/-- The store transition of one request. -/
def applyOp (store : Store) : Op → Store
  | Op.status n w => (receive_status store n w).1
  | Op.transcription n w => (receive_transcription store n w).1
  | Op.clear => (clear_events store).1

/-- The store reached by a run of requests: every reachable state is
`runOps emptyStore ops` for some `ops`. -/
def runOps (store : Store) (ops : List Op) : Store :=
  ops.foldl applyOp store

/-- The `utcnow()` reading an operation consumed, if any. -/
def opNow : Op → Option Nat
  | Op.status n _ => some n
  | Op.transcription n _ => some n
  | Op.clear => none

/-- The ambient clock readings a run consumed, in request order. -/
def clockReads (ops : List Op) : List Nat :=
  ops.filterMap opNow

/-- The `received_at` stamps of the status sequence, in append order. -/
def statusReceivedAts (store : Store) : List Nat :=
  store.status_events.map StatusEvent.received_at

/-- The `received_at` stamps of the transcription sequence, in append
order. -/
def transcriptionReceivedAts (store : Store) : List Nat :=
  store.transcription_events.map TranscriptionEvent.received_at

/-- A batch of status receives as run operations. -/
def statusOps (ws : List (Nat × StatusWebhook)) : List Op :=
  ws.map (fun p => Op.status p.1 p.2)

/-- A batch of transcription receives as run operations. -/
def transcriptionOps (ts : List (Nat × TranscriptionWebhook)) : List Op :=
  ts.map (fun p => Op.transcription p.1 p.2)

/-- The status events a batch of status receives stores. -/
def statusEventsOf (ws : List (Nat × StatusWebhook)) : List StatusEvent :=
  ws.map (fun p => mkStatusEvent p.2 p.1)

/-- The transcription events a batch of transcription receives stores. -/
def transcriptionEventsOf (ts : List (Nat × TranscriptionWebhook)) :
    List TranscriptionEvent :=
  ts.map (fun p => mkTranscriptionEvent p.2 p.1)

/-- All four declared fields of a raw status body are present. -/
def statusComplete (p : RawStatusPayload) : Prop :=
  p.callId.isSome ∧ p.status.isSome ∧ p.message.isSome ∧ p.timestamp.isSome

instance (p : RawStatusPayload) : Decidable (statusComplete p) := by
  unfold statusComplete
  infer_instance

/-- All six declared fields of a raw transcription body are present. -/
def transcriptionComplete (p : RawTranscriptionPayload) : Prop :=
  p.callId.isSome ∧ p.audioFilePath.isSome ∧ p.timestamp.isSome ∧
    p.speakerId.isSome ∧ p.speakerName.isSome ∧ p.durationMs.isSome

instance (p : RawTranscriptionPayload) : Decidable (transcriptionComplete p) := by
  unfold transcriptionComplete
  infer_instance

/-- The named field is indeed missing from the raw status body. -/
def statusFieldMissing (p : RawStatusPayload) : String → Prop
  | "callId" => p.callId = none
  | "status" => p.status = none
  | "message" => p.message = none
  | "timestamp" => p.timestamp = none
  | _ => False

/-- The named field is indeed missing from the raw transcription body. -/
def transcriptionFieldMissing (p : RawTranscriptionPayload) : String → Prop
  | "callId" => p.callId = none
  | "audioFilePath" => p.audioFilePath = none
  | "timestamp" => p.timestamp = none
  | "speakerId" => p.speakerId = none
  | "speakerName" => p.speakerName = none
  | "durationMs" => p.durationMs = none
  | _ => False

/-! ### Helper lemmas shared by several claims -/

theorem runOps_append (s : Store) (a b : List Op) :
    runOps s (a ++ b) = runOps (runOps s a) b := by
  simp [runOps, List.foldl_append]

theorem runOps_statusOps (s : Store) (ws : List (Nat × StatusWebhook)) :
    runOps s (statusOps ws) =
      { s with status_events := s.status_events ++ statusEventsOf ws } := by
  induction ws generalizing s with
  | nil => simp [runOps, statusOps, statusEventsOf]
  | cons p rest ih =>
      simp only [statusOps, List.map_cons, runOps, List.foldl_cons] at *
      rw [show applyOp s (Op.status p.1 p.2) = (receive_status s p.1 p.2).1 from rfl]
      rw [ih]
      simp [receive_status, statusEventsOf]

theorem runOps_transcriptionOps (s : Store) (ts : List (Nat × TranscriptionWebhook)) :
    runOps s (transcriptionOps ts) =
      { s with transcription_events :=
          s.transcription_events ++ transcriptionEventsOf ts } := by
  induction ts generalizing s with
  | nil => simp [runOps, transcriptionOps, transcriptionEventsOf]
  | cons p rest ih =>
      simp only [transcriptionOps, List.map_cons, runOps, List.foldl_cons] at *
      rw [show applyOp s (Op.transcription p.1 p.2)
            = (receive_transcription s p.1 p.2).1 from rfl]
      rw [ih]
      simp [receive_transcription, transcriptionEventsOf]

theorem lastN_length {α : Type} (n : Nat) (xs : List α) :
    (lastN n xs).length = min xs.length n := by
  simp only [lastN, List.length_drop]
  omega

theorem lastN_is_suffix {α : Type} (n : Nat) (xs : List α) :
    xs.take (xs.length - n) ++ lastN n xs = xs := by
  simp [lastN]

theorem status_validate_error_of_incomplete (p : RawStatusPayload)
    (hp : ¬ statusComplete p) :
    ∃ f, StatusWebhook.validate p =
        Except.error (ValidationError.missingField f) ∧
      statusFieldMissing p f := by
  rcases hc : p.callId with _ | c
  · exact ⟨"callId", by simp [StatusWebhook.validate, hc], hc⟩
  rcases hs : p.status with _ | s
  · exact ⟨"status", by simp [StatusWebhook.validate, hc, hs], hs⟩
  rcases hm : p.message with _ | m
  · exact ⟨"message", by simp [StatusWebhook.validate, hc, hs, hm], hm⟩
  rcases ht : p.timestamp with _ | ts
  · exact ⟨"timestamp", by simp [StatusWebhook.validate, hc, hs, hm, ht], ht⟩
  exact absurd ⟨by simp [hc], by simp [hs], by simp [hm], by simp [ht]⟩ hp

theorem transcription_validate_error_of_incomplete (p : RawTranscriptionPayload)
    (hp : ¬ transcriptionComplete p) :
    ∃ f, TranscriptionWebhook.validate p =
        Except.error (ValidationError.missingField f) ∧
      transcriptionFieldMissing p f := by
  rcases hc : p.callId with _ | c
  · exact ⟨"callId", by simp [TranscriptionWebhook.validate, hc], hc⟩
  rcases ha : p.audioFilePath with _ | a
  · exact ⟨"audioFilePath", by simp [TranscriptionWebhook.validate, hc, ha], ha⟩
  rcases ht : p.timestamp with _ | ts
  · exact ⟨"timestamp", by simp [TranscriptionWebhook.validate, hc, ha, ht], ht⟩
  rcases hsi : p.speakerId with _ | si
  · exact ⟨"speakerId",
      by simp [TranscriptionWebhook.validate, hc, ha, ht, hsi], hsi⟩
  rcases hsn : p.speakerName with _ | sn
  · exact ⟨"speakerName",
      by simp [TranscriptionWebhook.validate, hc, ha, ht, hsi, hsn], hsn⟩
  rcases hd : p.durationMs with _ | d
  · exact ⟨"durationMs",
      by simp [TranscriptionWebhook.validate, hc, ha, ht, hsi, hsn, hd], hd⟩
  exact absurd ⟨by simp [hc], by simp [ha], by simp [ht], by simp [hsi],
    by simp [hsn], by simp [hd]⟩ hp

/-! ### Claims -/

/-- Claim C1: receiving a valid status or transcription payload and then
calling `get_events` with that payload's `callId` returns the stored event
among the filtered results of the matching sequence, with its
`received_at` field populated with the intake clock reading.  A valid
payload has a non-empty `callId` (data-model invariant §3 of the spec);
the hypotheses state that validity condition. -/
theorem receive_then_get_returns_event
    (store : Store) (now : Nat) (w : StatusWebhook) (t : TranscriptionWebhook)
    (hw : w.callId ≠ "") (ht : t.callId ≠ "") :
    (∃ st tr,
      get_events (receive_status store now w).1 (some w.callId) =
        EventsResponse.filtered w.callId st tr ∧
      mkStatusEvent w now ∈ st ∧ (mkStatusEvent w now).received_at = now) ∧
    (∃ st tr,
      get_events (receive_transcription store now t).1 (some t.callId) =
        EventsResponse.filtered t.callId st tr ∧
      mkTranscriptionEvent t now ∈ tr ∧
      (mkTranscriptionEvent t now).received_at = now) := by
  constructor
  · refine ⟨(queryByCallId (receive_status store now w).1 w.callId).1,
      (queryByCallId (receive_status store now w).1 w.callId).2, ?_, ?_, rfl⟩
    · simp [get_events, hw]
    · simp [queryByCallId, receive_status, List.mem_filter, mkStatusEvent]
  · refine ⟨(queryByCallId (receive_transcription store now t).1 t.callId).1,
      (queryByCallId (receive_transcription store now t).1 t.callId).2, ?_, ?_, rfl⟩
    · simp [get_events, ht]
    · simp [queryByCallId, receive_transcription, List.mem_filter,
        mkTranscriptionEvent]

/-- Witness for C1 at a concrete payload pair: both call ids are
non-empty and the received events are found in the filtered views. -/
theorem receive_then_get_returns_event_witness :
    ((⟨"c1", "joined", "ok", 2⟩ : StatusWebhook).callId ≠ "" ∧
     (⟨"c1", "/a.wav", 2, "s1", "Alice", 40⟩ : TranscriptionWebhook).callId ≠ "") ∧
    ((∃ st tr,
      get_events (receive_status emptyStore 5 ⟨"c1", "joined", "ok", 2⟩).1
          (some "c1") = EventsResponse.filtered "c1" st tr ∧
      mkStatusEvent ⟨"c1", "joined", "ok", 2⟩ 5 ∈ st ∧
      (mkStatusEvent ⟨"c1", "joined", "ok", 2⟩ 5).received_at = 5) ∧
    (∃ st tr,
      get_events
          (receive_transcription emptyStore 5 ⟨"c1", "/a.wav", 2, "s1", "Alice", 40⟩).1
          (some "c1") = EventsResponse.filtered "c1" st tr ∧
      mkTranscriptionEvent ⟨"c1", "/a.wav", 2, "s1", "Alice", 40⟩ 5 ∈ tr ∧
      (mkTranscriptionEvent ⟨"c1", "/a.wav", 2, "s1", "Alice", 40⟩ 5).received_at = 5)) :=
  ⟨⟨by decide, by decide⟩,
   receive_then_get_returns_event emptyStore 5 ⟨"c1", "joined", "ok", 2⟩
     ⟨"c1", "/a.wav", 2, "s1", "Alice", 40⟩ (by decide) (by decide)⟩

/-- Claim C2: the status handler's hook dispatch is exact: status
`"joined"` fires exactly the bot-joined hook, `"left"` exactly the
finalize-meeting hook, `"error"` exactly the alert hook, and any other
status fires no hook.  The dispatch happens inside `receive_status`,
after the append and before the acknowledgement is returned, as in the
handler body (main.py lines 75-101). -/
theorem status_hook_dispatch (store : Store) (now : Nat) (w : StatusWebhook) :
    (w.status = "joined" →
      (receive_status store now w).2.1 = [Hook.botJoined]) ∧
    (w.status = "left" →
      (receive_status store now w).2.1 = [Hook.finalizeMeeting]) ∧
    (w.status = "error" →
      (receive_status store now w).2.1 = [Hook.alert]) ∧
    (w.status ≠ "joined" ∧ w.status ≠ "left" ∧ w.status ≠ "error" →
      (receive_status store now w).2.1 = []) := by
  refine ⟨fun h => ?_, fun h => ?_, fun h => ?_, fun h => ?_⟩
  · simp [receive_status, statusHooks, h]
  · simp [receive_status, statusHooks, h]
  · simp [receive_status, statusHooks, h]
  · simp [receive_status, statusHooks, h.1, h.2.1, h.2.2]

/-- Claim C4: `clear_events` reports the prior sizes of both sequences,
empties both, and afterwards the no-filter `get_events` view reports zero
totals and empty windows. -/
theorem clear_all_resets (store : Store) :
    (clear_events store).2 =
      ⟨true, store.status_events.length, store.transcription_events.length⟩ ∧
    (clear_events store).1 = emptyStore ∧
    get_events (clear_events store).1 none = EventsResponse.summary 0 0 [] [] :=
  ⟨rfl, rfl, rfl⟩

/-- Claim C6: the filter of `get_events` by call id returns exactly the
events of each sequence whose `callId` equals the argument (membership
characterisation), preserves original arrival order (the result is a
sublist of the stored sequence), and returns empty lists when nothing
matches.  `queryByCallId` consumes the store and returns only lists, so
the store is left unchanged. -/
theorem query_by_call_id_exact (store : Store) (cid : String) :
    (∀ e, e ∈ (queryByCallId store cid).1 ↔
      e ∈ store.status_events ∧ e.callId = cid) ∧
    (∀ e, e ∈ (queryByCallId store cid).2 ↔
      e ∈ store.transcription_events ∧ e.callId = cid) ∧
    List.Sublist (queryByCallId store cid).1 store.status_events ∧
    List.Sublist (queryByCallId store cid).2 store.transcription_events ∧
    ((∀ e ∈ store.status_events, e.callId ≠ cid) →
      (queryByCallId store cid).1 = []) ∧
    ((∀ e ∈ store.transcription_events, e.callId ≠ cid) →
      (queryByCallId store cid).2 = []) := by
  refine ⟨fun e => ?_, fun e => ?_, ?_, ?_, fun h => ?_, fun h => ?_⟩
  · simp [queryByCallId, List.mem_filter]
  · simp [queryByCallId, List.mem_filter]
  · exact List.filter_sublist _
  · exact List.filter_sublist _
  · exact List.filter_eq_nil_iff.mpr (fun e he => by simp [h e he])
  · exact List.filter_eq_nil_iff.mpr (fun e he => by simp [h e he])

/-- Claim C3: appending N status events and T transcription events to a
fresh store and calling the no-argument `get_events` summary reports
totals N and T and returns `min(N,10)` / `min(T,10)` items of each
sequence; the items are the most recently appended ones kept in arrival
order (they form the tail suffix of the full sequence). -/
theorem recent_summary_counts (ws : List (Nat × StatusWebhook))
    (ts : List (Nat × TranscriptionWebhook)) :
    get_events (runOps emptyStore (statusOps ws ++ transcriptionOps ts)) none =
      EventsResponse.summary ws.length ts.length
        (lastN 10 (statusEventsOf ws)) (lastN 10 (transcriptionEventsOf ts)) ∧
    (lastN 10 (statusEventsOf ws)).length = min ws.length 10 ∧
    (lastN 10 (transcriptionEventsOf ts)).length = min ts.length 10 ∧
    (statusEventsOf ws).take ((statusEventsOf ws).length - 10) ++
        lastN 10 (statusEventsOf ws) = statusEventsOf ws ∧
    (transcriptionEventsOf ts).take ((transcriptionEventsOf ts).length - 10) ++
        lastN 10 (transcriptionEventsOf ts) = transcriptionEventsOf ts := by
  have h1 : runOps emptyStore (statusOps ws ++ transcriptionOps ts) =
      ⟨statusEventsOf ws, transcriptionEventsOf ts⟩ := by
    rw [runOps_append, runOps_statusOps, runOps_transcriptionOps]
    simp [emptyStore]
  refine ⟨?_, ?_, ?_, lastN_is_suffix 10 _, lastN_is_suffix 10 _⟩
  · rw [h1]
    simp [get_events, summaryView, statusEventsOf, transcriptionEventsOf]
  · rw [lastN_length]
    simp [statusEventsOf]
  · rw [lastN_length]
    simp [transcriptionEventsOf]

/-- Claim C5: a webhook body missing a required field is rejected with a
`ValidationError` naming a field that is indeed missing, and the store is
left unchanged: no event is appended to either sequence. -/
theorem missing_field_rejected (store : Store) (now : Nat)
    (p : RawStatusPayload) (q : RawTranscriptionPayload)
    (hp : ¬ statusComplete p) (hq : ¬ transcriptionComplete q) :
    (∃ f, (post_status store now p).2 =
        Except.error (ValidationError.missingField f) ∧
      statusFieldMissing p f) ∧
    (post_status store now p).1 = store ∧
    (∃ f, (post_transcription store now q).2 =
        Except.error (ValidationError.missingField f) ∧
      transcriptionFieldMissing q f) ∧
    (post_transcription store now q).1 = store := by
  obtain ⟨f, hf, hmiss⟩ := status_validate_error_of_incomplete p hp
  obtain ⟨g, hg, gmiss⟩ := transcription_validate_error_of_incomplete q hq
  refine ⟨⟨f, ?_, hmiss⟩, ?_, ⟨g, ?_, gmiss⟩, ?_⟩ <;>
    simp [post_status, post_transcription, hf, hg]

/-- Witness for C5: a status body missing `callId` and a transcription
body missing `audioFilePath` are both rejected naming a missing field,
and the store stays empty. -/
theorem missing_field_rejected_witness :
    (¬ statusComplete ⟨none, some "joined", some "ok", some 1⟩ ∧
     ¬ transcriptionComplete ⟨some "c1", none, some 1, some "s", some "A", some 9⟩) ∧
    ((∃ f, (post_status emptyStore 3 ⟨none, some "joined", some "ok", some 1⟩).2 =
        Except.error (ValidationError.missingField f) ∧
      statusFieldMissing ⟨none, some "joined", some "ok", some 1⟩ f) ∧
    (post_status emptyStore 3 ⟨none, some "joined", some "ok", some 1⟩).1 =
      emptyStore ∧
    (∃ f, (post_transcription emptyStore 3
          ⟨some "c1", none, some 1, some "s", some "A", some 9⟩).2 =
        Except.error (ValidationError.missingField f) ∧
      transcriptionFieldMissing
        ⟨some "c1", none, some 1, some "s", some "A", some 9⟩ f) ∧
    (post_transcription emptyStore 3
        ⟨some "c1", none, some 1, some "s", some "A", some 9⟩).1 = emptyStore) :=
  ⟨⟨by decide, by decide⟩,
   missing_field_rejected emptyStore 3 ⟨none, some "joined", some "ok", some 1⟩
     ⟨some "c1", none, some 1, some "s", some "A", some 9⟩
     (by decide) (by decide)⟩

/-- A transcription body with every field present and `durationMs` the
negative integer -5. -/
def negDurationPayload : RawTranscriptionPayload :=
  ⟨some "c1", some "/tmp/a.wav", some 5, some "sp1", some "Alice", some (-5)⟩

/-- Counterexample to claim C7: pydantic's `durationMs: int` carries no
sign constraint, so a body whose `durationMs` is -5 passes validation,
is acknowledged, and is stored with `durationMs = -5`, instead of
failing with a `ValidationError` as the claim states. -/
theorem negative_duration_accepted :
    post_transcription emptyStore 7 negDurationPayload =
      (⟨[], [⟨"c1", "sp1", "Alice", "/tmp/a.wav", -5, 5, 7⟩]⟩,
       Except.ok ⟨true, "c1", "Audio will be processed"⟩) := rfl

/-- Amended claim C7: validation requires `durationMs` only to be
present as an integer; every integer value, negative ones included,
passes validation and is stored unchanged. -/
theorem duration_validated_as_int_only (store : Store) (now : Nat)
    (q : RawTranscriptionPayload) (hq : transcriptionComplete q) :
    ∃ w, TranscriptionWebhook.validate q = Except.ok w ∧
      some w.durationMs = q.durationMs ∧
      (post_transcription store now q).1.transcription_events =
        store.transcription_events ++ [mkTranscriptionEvent w now] ∧
      (post_transcription store now q).2 =
        Except.ok ⟨true, w.callId, "Audio will be processed"⟩ := by
  obtain ⟨h1, h2, h3, h4, h5, h6⟩ := hq
  obtain ⟨c, hc⟩ := Option.isSome_iff_exists.mp h1
  obtain ⟨a, ha⟩ := Option.isSome_iff_exists.mp h2
  obtain ⟨ts, hts⟩ := Option.isSome_iff_exists.mp h3
  obtain ⟨si, hsi⟩ := Option.isSome_iff_exists.mp h4
  obtain ⟨sn, hsn⟩ := Option.isSome_iff_exists.mp h5
  obtain ⟨d, hd⟩ := Option.isSome_iff_exists.mp h6
  refine ⟨⟨c, a, ts, si, sn, d⟩, ?_, ?_, ?_, ?_⟩ <;>
    simp [TranscriptionWebhook.validate, post_transcription,
      receive_transcription, hc, ha, hts, hsi, hsn, hd]

/-- Witness for the amended C7 at the negative-duration body: it is
complete, validates, and is stored with its negative duration. -/
theorem duration_validated_as_int_only_witness :
    transcriptionComplete negDurationPayload ∧
    (∃ w, TranscriptionWebhook.validate negDurationPayload = Except.ok w ∧
      some w.durationMs = negDurationPayload.durationMs ∧
      (post_transcription emptyStore 7 negDurationPayload).1.transcription_events =
        emptyStore.transcription_events ++ [mkTranscriptionEvent w 7] ∧
      (post_transcription emptyStore 7 negDurationPayload).2 =
        Except.ok ⟨true, w.callId, "Audio will be processed"⟩) :=
  ⟨by decide,
   duration_validated_as_int_only emptyStore 7 negDurationPayload (by decide)⟩

/-- A status body with every field present and `callId` the empty string. -/
def emptyCallIdPayload : RawStatusPayload :=
  ⟨some "", some "joined", some "ok", some 3⟩

/-- Counterexample to claim C8: a successful status receive can store an
event whose `callId` is the empty string, because pydantic's
`callId: str` requires only presence of a string, not non-emptiness. -/
theorem empty_call_id_stored :
    (post_status emptyStore 4 emptyCallIdPayload).2 =
      Except.ok ([Hook.botJoined], ⟨true, ""⟩) ∧
    (post_status emptyStore 4 emptyCallIdPayload).1.status_events.map
        StatusEvent.callId = [""] :=
  ⟨rfl, rfl⟩

/-- Amended claim C8: validation requires `callId` only to be present as
a string; a stored event's `callId` always equals the submitted one,
which may be the empty string (uniqueness is still not enforced and
events stay ordered by arrival). -/
theorem stored_call_id_mirrors_payload (store : Store) (now : Nat)
    (p : RawStatusPayload) (c : String) (hc : p.callId = some c)
    (hp : statusComplete p) :
    ∃ r, (post_status store now p).2 = Except.ok r ∧
      (post_status store now p).1.status_events.map StatusEvent.callId =
        store.status_events.map StatusEvent.callId ++ [c] := by
  obtain ⟨h1, h2, h3, h4⟩ := hp
  obtain ⟨s, hs⟩ := Option.isSome_iff_exists.mp h2
  obtain ⟨m, hm⟩ := Option.isSome_iff_exists.mp h3
  obtain ⟨ts, hts⟩ := Option.isSome_iff_exists.mp h4
  refine ⟨(statusHooks ⟨c, s, m, ts⟩, ⟨true, c⟩), ?_, ?_⟩ <;>
    simp [post_status, StatusWebhook.validate, receive_status, mkStatusEvent,
      hc, hs, hm, hts]

/-- Witness for the amended C8 at the empty-`callId` body: the receive
succeeds and the stored event's `callId` is the empty string. -/
theorem stored_call_id_mirrors_payload_witness :
    (emptyCallIdPayload.callId = some "" ∧ statusComplete emptyCallIdPayload) ∧
    (∃ r, (post_status emptyStore 4 emptyCallIdPayload).2 = Except.ok r ∧
      (post_status emptyStore 4 emptyCallIdPayload).1.status_events.map
          StatusEvent.callId =
        emptyStore.status_events.map StatusEvent.callId ++ [""]) :=
  ⟨⟨by decide, by decide⟩,
   stored_call_id_mirrors_payload emptyStore 4 emptyCallIdPayload ""
     (by decide) (by decide)⟩

/-- Claim C10: calling `get_events` with `call_id` equal to the empty
string yields the no-filter summary view, identical to the no-argument
call (Python's `if call_id:` is false for the empty string); moreover no
filtered view, under any argument, ever exposes an event whose `callId`
is empty, so such stored events are unreachable through the filtered
view. -/
theorem empty_call_id_query_gives_summary (store : Store) :
    get_events store (some "") = get_events store none ∧
    get_events store (some "") =
      EventsResponse.summary store.status_events.length
        store.transcription_events.length
        (lastN 10 store.status_events) (lastN 10 store.transcription_events) ∧
    (∀ c cid st tr, get_events store c = EventsResponse.filtered cid st tr →
      (∀ e ∈ st, e.callId ≠ "") ∧ (∀ e ∈ tr, e.callId ≠ "")) := by
  refine ⟨rfl, rfl, ?_⟩
  intro c cid st tr h
  match c with
  | none => simp [get_events, summaryView] at h
  | some s =>
      by_cases hs : s = ""
      · subst hs
        simp [get_events, summaryView] at h
      · rw [get_events.eq_def] at h
        simp only [if_neg hs, EventsResponse.filtered.injEq] at h
        obtain ⟨rfl, rfl, rfl⟩ := h
        constructor
        · intro e he
          have := (List.mem_filter.mp he).2
          simp only [beq_iff_eq] at this
          rw [this]
          exact hs
        · intro e he
          have := (List.mem_filter.mp he).2
          simp only [beq_iff_eq] at this
          rw [this]
          exact hs

theorem statusReceivedAts_receive (s : Store) (n : Nat) (w : StatusWebhook) :
    statusReceivedAts (receive_status s n w).1 = statusReceivedAts s ++ [n] := by
  simp [statusReceivedAts, receive_status, mkStatusEvent]

theorem transcriptionReceivedAts_receive_status (s : Store) (n : Nat)
    (w : StatusWebhook) :
    transcriptionReceivedAts (receive_status s n w).1 =
      transcriptionReceivedAts s := rfl

theorem transcriptionReceivedAts_receive (s : Store) (n : Nat)
    (w : TranscriptionWebhook) :
    transcriptionReceivedAts (receive_transcription s n w).1 =
      transcriptionReceivedAts s ++ [n] := by
  simp [transcriptionReceivedAts, receive_transcription, mkTranscriptionEvent]

theorem statusReceivedAts_receive_transcription (s : Store) (n : Nat)
    (w : TranscriptionWebhook) :
    statusReceivedAts (receive_transcription s n w).1 =
      statusReceivedAts s := rfl

theorem runOps_pairwise_aux (ops : List Op) (s : Store)
    (hops : (clockReads ops).Pairwise (· ≤ ·))
    (hs : (statusReceivedAts s).Pairwise (· ≤ ·))
    (ht : (transcriptionReceivedAts s).Pairwise (· ≤ ·))
    (hb : ∀ x ∈ statusReceivedAts s ++ transcriptionReceivedAts s,
      ∀ n ∈ clockReads ops, x ≤ n) :
    (statusReceivedAts (runOps s ops)).Pairwise (· ≤ ·) ∧
    (transcriptionReceivedAts (runOps s ops)).Pairwise (· ≤ ·) := by
  induction ops generalizing s with
  | nil => exact ⟨hs, ht⟩
  | cons op rest ih =>
    cases op with
    | status n w =>
      have hcr : clockReads (Op.status n w :: rest) = n :: clockReads rest := rfl
      rw [hcr] at hops hb
      rw [List.pairwise_cons] at hops
      obtain ⟨hn, hrest⟩ := hops
      have hrun : runOps s (Op.status n w :: rest) =
          runOps (receive_status s n w).1 rest := rfl
      rw [hrun]
      apply ih
      · exact hrest
      · rw [statusReceivedAts_receive, List.pairwise_append]
        refine ⟨hs, List.pairwise_singleton _ _, ?_⟩
        intro x hx y hy
        rw [List.mem_singleton] at hy
        rw [hy]
        exact hb x (List.mem_append_left _ hx) n (List.mem_cons_self _ _)
      · rw [transcriptionReceivedAts_receive_status]
        exact ht
      · intro x hx m hm
        rw [statusReceivedAts_receive,
          transcriptionReceivedAts_receive_status] at hx
        rcases List.mem_append.mp hx with hx1 | hx2
        · rcases List.mem_append.mp hx1 with hxo | hxn
          · exact hb x (List.mem_append_left _ hxo) m (List.mem_cons_of_mem _ hm)
          · rw [List.mem_singleton] at hxn
            subst hxn
            exact hn m hm
        · exact hb x (List.mem_append_right _ hx2) m (List.mem_cons_of_mem _ hm)
    | transcription n w =>
      have hcr : clockReads (Op.transcription n w :: rest) =
          n :: clockReads rest := rfl
      rw [hcr] at hops hb
      rw [List.pairwise_cons] at hops
      obtain ⟨hn, hrest⟩ := hops
      have hrun : runOps s (Op.transcription n w :: rest) =
          runOps (receive_transcription s n w).1 rest := rfl
      rw [hrun]
      apply ih
      · exact hrest
      · rw [statusReceivedAts_receive_transcription]
        exact hs
      · rw [transcriptionReceivedAts_receive, List.pairwise_append]
        refine ⟨ht, List.pairwise_singleton _ _, ?_⟩
        intro x hx y hy
        rw [List.mem_singleton] at hy
        rw [hy]
        exact hb x (List.mem_append_right _ hx) n (List.mem_cons_self _ _)
      · intro x hx m hm
        rw [statusReceivedAts_receive_transcription,
          transcriptionReceivedAts_receive] at hx
        rcases List.mem_append.mp hx with hx1 | hx2
        · exact hb x (List.mem_append_left _ hx1) m (List.mem_cons_of_mem _ hm)
        · rcases List.mem_append.mp hx2 with hxo | hxn
          · exact hb x (List.mem_append_right _ hxo) m (List.mem_cons_of_mem _ hm)
          · rw [List.mem_singleton] at hxn
            subst hxn
            exact hn m hm
    | clear =>
      have hcr : clockReads (Op.clear :: rest) = clockReads rest := rfl
      rw [hcr] at hops hb
      have hrun : runOps s (Op.clear :: rest) = runOps emptyStore rest := rfl
      rw [hrun]
      apply ih
      · exact hops
      · exact List.Pairwise.nil
      · exact List.Pairwise.nil
      · intro x hx
        simp [statusReceivedAts, transcriptionReceivedAts, emptyStore] at hx

/-- A concrete status payload used in run-level examples. -/
def demoStatusW : StatusWebhook := ⟨"c1", "joined", "ok", 0⟩

/-- A concrete transcription payload used in run-level examples. -/
def demoTransW : TranscriptionWebhook := ⟨"c2", "/b.wav", 1, "s2", "Bob", 10⟩

/-- Counterexample to claim C9: `received_at` is whatever
`datetime.utcnow()` returns at the append, and the code adds no ordering
of its own; in the run whose two receives observe clock readings 1 then
0 (a wall-clock step-back), the stored `received_at` sequence is [1, 0],
which is not non-decreasing. -/
theorem received_at_not_monotone :
    ¬ (statusReceivedAts (runOps emptyStore
        [Op.status 1 demoStatusW, Op.status 0 demoStatusW])).Pairwise (· ≤ ·) := by
  intro h
  have heq : statusReceivedAts (runOps emptyStore
      [Op.status 1 demoStatusW, Op.status 0 demoStatusW]) = [1, 0] := rfl
  rw [heq, List.pairwise_cons] at h
  have := h.1 0 (List.mem_singleton.mpr rfl)
  omega

/-- Amended claim C9: in every store reached by a run of receives and
clears, the `received_at` stamps of each sequence are non-decreasing in
append order, provided the ambient clock readings the run consumed were
themselves non-decreasing; the code stamps each event with the current
clock and enforces no ordering itself. -/
theorem received_at_monotone_of_clock_monotone (ops : List Op)
    (h : (clockReads ops).Pairwise (· ≤ ·)) :
    (statusReceivedAts (runOps emptyStore ops)).Pairwise (· ≤ ·) ∧
    (transcriptionReceivedAts (runOps emptyStore ops)).Pairwise (· ≤ ·) := by
  apply runOps_pairwise_aux ops emptyStore h List.Pairwise.nil List.Pairwise.nil
  intro x hx
  simp [statusReceivedAts, transcriptionReceivedAts, emptyStore] at hx

/-- Witness for the amended C9 on a concrete run with non-decreasing
clock readings 1, 2, 3 across a status receive, a transcription receive,
a clear and another status receive. -/
theorem received_at_monotone_witness :
    (clockReads [Op.status 1 demoStatusW, Op.transcription 2 demoTransW,
        Op.clear, Op.status 3 demoStatusW]).Pairwise (· ≤ ·) ∧
    ((statusReceivedAts (runOps emptyStore
        [Op.status 1 demoStatusW, Op.transcription 2 demoTransW,
         Op.clear, Op.status 3 demoStatusW])).Pairwise (· ≤ ·) ∧
     (transcriptionReceivedAts (runOps emptyStore
        [Op.status 1 demoStatusW, Op.transcription 2 demoTransW,
         Op.clear, Op.status 3 demoStatusW])).Pairwise (· ≤ ·)) :=
  ⟨by decide,
   received_at_monotone_of_clock_monotone
     [Op.status 1 demoStatusW, Op.transcription 2 demoTransW,
      Op.clear, Op.status 3 demoStatusW] (by decide)⟩

end ArtyBackend
